import Mathlib

/-!
Verification of the inprod production-readiness core against its sources.

The definitions below are shallow embeddings of:
  - src/lib/inprod/types.ts        (categories, platform applicability, data model)
  - src/docs/altitude-system.md    (calculateAltitude, usersToAltitude, ceiling tables)
  - src/app/api/generate/route.ts  (gap selection and grouping in the POST handler)
  - src/lib/rate-limit.ts          (rateLimit)

Machine numbers are modelled as Nat/Int/Rat: JavaScript arithmetic on the values
appearing here (small integers, exact rationals from integer division) is exact,
so Rat is a faithful model; Math.floor and Math.ceil become Int.floor and
Int.ceil on Rat.
-/

namespace Inprod

/-! ## Categories and platforms (src/lib/inprod/types.ts) -/

/-- The `Category` union type of types.ts. -/
inductive Category where
  | frontend
  | backend
  | database
  | authentication
  | apiIntegrations
  | stateManagement
  | designUx
  | testing
  | security
  | errorHandling
  | versionControl
  | deployment
  deriving DecidableEq, Repr

/-- `CATEGORIES`: the fixed category declaration order (types.ts lines 19-32). -/
def CATEGORIES : List Category :=
  [.frontend, .backend, .database, .authentication, .apiIntegrations,
   .stateManagement, .designUx, .testing, .security, .errorHandling,
   .versionControl, .deployment]

/-- Position of a category in the fixed declaration order `CATEGORIES`. -/
def catIdx : Category → Nat
  | .frontend => 0
  | .backend => 1
  | .database => 2
  | .authentication => 3
  | .apiIntegrations => 4
  | .stateManagement => 5
  | .designUx => 6
  | .testing => 7
  | .security => 8
  | .errorHandling => 9
  | .versionControl => 10
  | .deployment => 11

/-- The platform enumeration of `TechStack.platform` (types.ts line 107). -/
inductive Platform where
  | web
  | ios
  | android
  | backend
  | cli
  | library
  | monorepo
  deriving DecidableEq, Repr

/-- `PLATFORM_CATEGORIES`: which categories apply to which platform
(types.ts lines 50-58). -/
def PLATFORM_CATEGORIES : Platform → List Category
  | .web => [.frontend, .backend, .database, .authentication, .apiIntegrations,
             .stateManagement, .designUx, .testing, .security, .errorHandling,
             .versionControl, .deployment]
  | .ios => [.designUx, .testing, .security, .errorHandling, .versionControl,
             .deployment, .stateManagement]
  | .android => [.designUx, .testing, .security, .errorHandling, .versionControl,
                 .deployment, .stateManagement]
  | .backend => [.backend, .database, .authentication, .apiIntegrations, .testing,
                 .security, .errorHandling, .versionControl, .deployment]
  | .cli => [.testing, .security, .errorHandling, .versionControl, .deployment]
  | .library => [.testing, .security, .versionControl]
  | .monorepo => [.frontend, .backend, .database, .authentication, .apiIntegrations,
                  .stateManagement, .designUx, .testing, .security, .errorHandling,
                  .versionControl, .deployment]

/-! ## Gap model and analysis result (src/lib/inprod/types.ts) -/

inductive Severity where
  | blocker
  | critical
  | warning
  | info
  deriving DecidableEq, Repr

inductive Confidence where
  | proven
  | verified
  | high
  | likely
  | possible
  deriving DecidableEq, Repr

inductive FixType where
  | instant
  | suggested
  | guided
  deriving DecidableEq, Repr

/-- The `Gap` interface (types.ts lines 83-95). -/
structure Gap where
  id : String
  category : Category
  title : String
  description : String
  severity : Severity
  confidence : Confidence
  file : Option String := none
  line : Option Nat := none
  fixType : FixType
  fixTemplate : Option String := none
  effortMinutes : Option Nat := none
  deriving DecidableEq, Repr

/-- The `CategoryScore` interface (types.ts lines 97-104). -/
structure CategoryScore where
  category : Category
  label : String
  score : Int
  detected : List String
  gaps : List Gap
  canGenerate : Bool
  deriving DecidableEq, Repr

/-- The `TechStack` interface (types.ts lines 106-116). -/
structure TechStack where
  platform : Platform
  languages : List String
  frameworks : List String
  packageManager : Option String := none
  database : Option String := none
  testFramework : Option String := none
  ciProvider : Option String := none
  deploymentPlatform : Option String := none
  deriving DecidableEq, Repr

/-- The `CompletenessAnalysis` interface (types.ts lines 118-129). -/
structure CompletenessAnalysis where
  repoUrl : String
  techStack : TechStack
  overallScore : Int
  categories : List CategoryScore
  totalGaps : Nat := 0
  blockerCount : Nat := 0
  criticalCount : Nat := 0
  warningCount : Nat := 0
  estimatedFixMinutes : Nat := 0
  canAutoFix : Nat := 0
  deriving DecidableEq, Repr

/-! ## Altitude system (src/docs/altitude-system.md) -/

/-- The eleven named altitude levels, ascending (altitude-system.md scale table). -/
inductive Level where
  | GROUNDED
  | HANGAR
  | RUNWAY
  | TAKEOFF
  | CLIMBING
  | CRUISING
  | STRATOSPHERE
  | KARMAN
  | ORBIT
  | GEOSTATIONARY
  | VOYAGER
  deriving DecidableEq, Repr

inductive AltUnit where
  | ft
  | km
  deriving DecidableEq, Repr

/-- Return type of `usersToAltitude`. `value = none` models the JavaScript
`Infinity` returned for VOYAGER. -/
structure AltitudeOut where
  value : Option Nat
  level : Level
  unit : AltUnit
  deriving DecidableEq, Repr

/-- `usersToAltitude` (altitude-system.md lines 173-185), translated clause by
clause. The argument is an integer because its one caller passes the result of
`Math.floor`. -/
def usersToAltitude (users : Int) : AltitudeOut :=
  if users = 0 then ⟨some 0, .GROUNDED, .ft⟩
  else if users < 10 then ⟨some 0, .HANGAR, .ft⟩
  else if users < 100 then ⟨some 0, .RUNWAY, .ft⟩
  else if users < 1000 then ⟨some 1000, .TAKEOFF, .ft⟩
  else if users < 10000 then ⟨some 10000, .CLIMBING, .ft⟩
  else if users < 100000 then ⟨some 35000, .CRUISING, .ft⟩
  else if users < 1000000 then ⟨some 50000, .STRATOSPHERE, .ft⟩
  else if users < 10000000 then ⟨some 100, .KARMAN, .km⟩
  else if users < 100000000 then ⟨some 400, .ORBIT, .km⟩
  else if users < 1000000000 then ⟨some 36000, .GEOSTATIONARY, .km⟩
  else ⟨none, .VOYAGER, .km⟩

/-- The `CategoryResult` interface of altitude-system.md (lines 119-125).
The `fixes` field is omitted: no claim concerns it and the `Fix` type has no
definition in the repository. The `category` string field is typed with the
fixed `Category` enumeration of types.ts. -/
structure CategoryResult where
  category : Category
  score : Rat
  maxUsers : Nat
  bottleneck : Bool
  deriving DecidableEq, Repr

/-- Model of the ECMAScript stable sort
`[...categories].sort((a, b) => a.maxUsers - b.maxUsers)`:
insert one element into an already sorted list, keeping it after
earlier-positioned elements with an equal key. -/
def insertCR (a : CategoryResult) : List CategoryResult → List CategoryResult
  | [] => [a]
  | b :: rest =>
    if a.maxUsers ≤ b.maxUsers then a :: b :: rest else b :: insertCR a rest

/-- Stable sort by ascending `maxUsers` (model of the JS `Array.prototype.sort`
call in `calculateAltitude`). -/
def sortByMaxUsers : List CategoryResult → List CategoryResult
  | [] => []
  | a :: rest => insertCR a (sortByMaxUsers rest)

/-- Placeholder for `sorted[0]` on an empty array; every theorem below assumes
a non-empty input, matching the JS code which is undefined on `[]`. -/
def dummyCR : CategoryResult := ⟨.frontend, 0, 0, false⟩

/-- `sorted[0]` of `calculateAltitude`: the bottleneck entry. -/
def bottleneckOf (categories : List CategoryResult) : CategoryResult :=
  (sortByMaxUsers categories).headD dummyCR

/-- `avgScore` of `calculateAltitude` (line 151):
`categories.reduce((sum, c) => sum + c.score, 0) / categories.length`. -/
def avgScore (categories : List CategoryResult) : Rat :=
  (categories.map (·.score)).sum / (categories.length : Rat)

/-- The `AltitudeReport` interface (altitude-system.md lines 127-140).
`toNextLevel` is omitted: it is produced by `calculateNextLevel`, which has no
definition anywhere in the repository. -/
structure AltitudeReport where
  currentAltitude : Option Nat
  altitudeLevel : Level
  maxConcurrentUsers : Int
  bottleneck : CategoryResult
  categories : List CategoryResult
  deriving DecidableEq, Repr

/-- `calculateAltitude` (altitude-system.md lines 142-171), line by line. -/
def calculateAltitude (categories : List CategoryResult) : AltitudeReport :=
  let bottleneck := bottleneckOf categories
  let maxConcurrentUsers := bottleneck.maxUsers
  let healthMultiplier := avgScore categories / 100
  let effectiveUsers : Int := ⌊(maxConcurrentUsers : Rat) * healthMultiplier⌋
  let altitude := usersToAltitude effectiveUsers
  { currentAltitude := altitude.value
    altitudeLevel := altitude.level
    maxConcurrentUsers := effectiveUsers
    bottleneck := { bottleneck with bottleneck := true }
    categories :=
      categories.map (fun c => { c with bottleneck := c.category == bottleneck.category }) }

/-- The "Max Users If Perfect" column of the category altitude limits table
(altitude-system.md lines 45-58): each category's tier-6 ceiling. -/
def maxUsersIfPerfect : Category → Nat
  | .database => 10000000
  | .backend => 5000000
  | .deployment => 1000000
  | .security => 500000
  | .errorHandling => 500000
  | .authentication => 200000
  | .apiIntegrations => 100000
  | .stateManagement => 100000
  | .testing => 50000
  | .versionControl => 50000
  | .designUx => 20000
  | .frontend => 10000

/-! ## Fix selection and grouping (src/app/api/generate/route.ts, POST) -/

/-- `analysis.categories.flatMap(c => c.gaps)` as it appears in the POST
handler (route.ts line 44). -/
def allGaps (a : CompletenessAnalysis) : List Gap :=
  (a.categories.map (·.gaps)).flatten

/-- Modelled from the spec: `getInstantFixGaps` is exported by the analyzer
module, which is absent from the sources (only its caller in route.ts and
its import statement remain). Per the spec, fix eligibility selects the gaps whose intrinsic
`fixType` is `instant`, across all applicable categories of the completed
analysis. -/
def getInstantFixGaps (a : CompletenessAnalysis) : List Gap :=
  (allGaps a).filter (fun g => g.fixType == FixType.instant)

/-- The gap-selection branch chain of the POST handler (route.ts lines 39-58).
An absent request field is `none`; JS truthiness of `gapsToFix &&
gapsToFix.length > 0` (and likewise for `categories`) is modelled on the
`Option`. -/
def selectTargetGaps (a : CompletenessAnalysis) (gapsToFix : Option (List String))
    (instantOnly : Bool) (categories : Option (List Category)) : List Gap :=
  if (gapsToFix.getD []).length > 0 then
    (allGaps a).filter (fun g => (gapsToFix.getD []).contains g.id)
  else if instantOnly then
    getInstantFixGaps a
  else if (categories.getD []).length > 0 then
    ((a.categories.filter (fun c => (categories.getD []).contains c.category)).map
      (·.gaps)).flatten
  else
    getInstantFixGaps a

/-- `map.get(category)` on the insertion-ordered JS `Map`, modelled as an
association list kept in insertion order. -/
def mapGet (m : List (Category × List Gap)) (c : Category) : Option (List Gap) :=
  match m with
  | [] => none
  | e :: rest => if e.1 = c then some e.2 else mapGet rest c

/-- `map.set(category, v)`: replace in place if the key exists, else append
(JS `Map` preserves insertion order). -/
def mapSet (m : List (Category × List Gap)) (c : Category) (v : List Gap) :
    List (Category × List Gap) :=
  match m with
  | [] => [(c, v)]
  | e :: rest => if e.1 = c then (c, v) :: rest else e :: mapSet rest c v

/-- One iteration of the grouping loop of the POST handler (route.ts lines
79-84): `existing = map.get(cat) || []; existing.push(gap); map.set(cat,
existing)`. -/
def groupStep (m : List (Category × List Gap)) (g : Gap) :
    List (Category × List Gap) :=
  mapSet m g.category ((mapGet m g.category).getD [] ++ [g])

/-- `gapsByCategory` of the POST handler: the insertion-ordered `Map` built by
folding the grouping loop over the selected gaps. -/
def gapsByCategory (gaps : List Gap) : List (Category × List Gap) :=
  gaps.foldl groupStep []

/-! ## Rate limiter (src/lib/rate-limit.ts) -/

/-- The `RateLimitResult` interface (rate-limit.ts lines 3-7). `reset` is kept
rational because the failure branch performs no `Math.ceil`. -/
structure RateLimitResult where
  success : Bool
  reset : Rat
  remaining : Int
  deriving DecidableEq, Repr

/-- The `try` block of `rateLimit` (rate-limit.ts lines 17-53). The three
database interactions (raw DELETE, count, create) are abstracted as `Except`
outcomes supplied by the environment; `now` is the integral `Date.now()`
millisecond clock. -/
def rateLimitTry (now : Int) (limit : Int) (windowMs : Rat)
    (del : Except Unit Unit) (cnt : Except Unit Nat) (crt : Except Unit Unit) :
    Except Unit RateLimitResult :=
  let windowStart : Rat := (now : Rat) - windowMs
  match del with
  | .error e => .error e
  | .ok _ =>
    match cnt with
    | .error e => .error e
    | .ok count =>
      if (count : Int) ≥ limit then
        .ok { success := false, reset := ((⌈windowStart + windowMs⌉ : Int) : Rat),
              remaining := 0 }
      else
        match crt with
        | .error e => .error e
        | .ok _ =>
          .ok { success := true, reset := ((⌈windowStart + windowMs⌉ : Int) : Rat),
                remaining := limit - (count : Int) - 1 }

/-- `rateLimit` (rate-limit.ts lines 9-63): run the `try` block and, on any
thrown database error, fail open with the catch-branch result. The
`identifier` argument only parametrizes the abstracted database calls. -/
def rateLimit (identifier : String) (now : Int) (limit : Int) (windowMs : Rat)
    (del : Except Unit Unit) (cnt : Except Unit Nat) (crt : Except Unit Unit) :
    RateLimitResult :=
  match rateLimitTry now limit windowMs del cnt crt with
  | .ok r => r
  | .error _ =>
    { success := true, reset := (now : Rat) + windowMs, remaining := limit - 1 }

/-! ## Spec-side definitions used for refinement comparisons -/

/-- The overall score exactly as the specification words it: the rounded
arithmetic mean of the applicable categories' scores, clamped to [0, 100]
(spec section 4.3). Used only to compare the spec's formula with the code. -/
def specOverallScore (categories : List CategoryResult) : Int :=
  max 0 (min 100 (round (avgScore categories)))

/-- The eleven level names in ascending order, as the claims reference them. -/
def levelsAsc : List Level :=
  [.GROUNDED, .HANGAR, .RUNWAY, .TAKEOFF, .CLIMBING, .CRUISING, .STRATOSPHERE,
   .KARMAN, .ORBIT, .GEOSTATIONARY, .VOYAGER]

/-- The selection rule as the spec words it: the level paired with the highest
breakpoint that is ≤ the user count, scanning an ascending table. -/
def tableLevel (table : List (Nat × Level)) (u : Nat) : Level :=
  table.foldl (fun acc e => if e.1 ≤ u then e.2 else acc) .GROUNDED

/-- The breakpoint table exactly as claim C3 states it: ten entries, 1 absent. -/
def claimBreakpoints : List Nat :=
  [0, 10, 100, 1000, 10000, 100000, 1000000, 10000000, 100000000, 1000000000]

/-- Level assignment under claim C3's own table and selection rule. -/
def claimLevelOf (u : Nat) : Level :=
  tableLevel (claimBreakpoints.zip levelsAsc) u

/-- The breakpoint table actually realized by `usersToAltitude`: the claim's
table with the missing breakpoint 1 (HANGAR) inserted, giving one breakpoint
per named level. -/
def fixedBreakpoints : List Nat :=
  [0, 1, 10, 100, 1000, 10000, 100000, 1000000, 10000000, 100000000, 1000000000]

/-- Level assignment under the corrected eleven-entry breakpoint table. -/
def fixedLevelOf (u : Nat) : Level :=
  tableLevel (fixedBreakpoints.zip levelsAsc) u

/-! ## Parts of the analyzer modelled from the spec

The analyzer module (`analyzeCompleteness`, `formatAnalysisSummary`) is not
among the sources; only its tests, its type declarations and its callers are.
The definitions in this section therefore follow the spec's words and are
marked as such. -/

/-- Modelled from the spec: `analyzeCompleteness` (absent from the sources)
evaluates exactly one scorer per category applicable to the detected platform,
registered in a fixed declared order, and omits non-applicable categories
entirely (spec sections 4.2 and 9). The individual scorer is abstracted as a
function argument already closed over the corpus and tech profile. -/
def analyzeCategories (scorer : Category → CategoryScore) (p : Platform) :
    List CategoryScore :=
  (PLATFORM_CATEGORIES p).map scorer

/-- Joins a list of strings with a comma separator, as a summary line would. -/
def joinComma : List String → String
  | [] => ""
  | [s] => s
  | s :: rest => s ++ ", " ++ joinComma rest

/-- Modelled from the spec: `formatAnalysisSummary` (absent from the sources,
exercised only by its test) is a pure text digest that contains the literal
headings "Production Readiness" and "Category Scores" and lists the name of
every detected framework (spec section 6, Scenario C). -/
def formatAnalysisSummary (a : CompletenessAnalysis) : String :=
  ("Production Readiness" ++ (" Report for " ++ (a.repoUrl ++ "\n"))) ++
  (("Overall Score: " ++ (toString a.overallScore ++ "/100\n")) ++
   (("Tech Stack: " ++ (joinComma a.techStack.frameworks ++ "\n")) ++
    ("Category Scores" ++ (":\n" ++
      joinComma (a.categories.map (fun cs => cs.label ++ " " ++ toString cs.score))))))

/-- `t` occurs as contiguous text inside `s`. -/
def strContains (s t : String) : Prop :=
  ∃ l r, s.data = l ++ t.data ++ r

/-! ## Helper lemmas about the stable sort and the bottleneck -/

theorem insertCR_ne_nil (a : CategoryResult) (s : List CategoryResult) :
    insertCR a s ≠ [] := by
  cases s with
  | nil => simp [insertCR]
  | cons b t => simp only [insertCR]; split <;> simp

theorem sortByMaxUsers_ne_nil (l : List CategoryResult) (h : l ≠ []) :
    sortByMaxUsers l ≠ [] := by
  cases l with
  | nil => exact absurd rfl h
  | cons a rest =>
    simp only [sortByMaxUsers]
    exact insertCR_ne_nil a _

theorem headD_insertCR (a d : CategoryResult) (s : List CategoryResult) (hs : s ≠ []) :
    (insertCR a s).headD d =
      if a.maxUsers ≤ (s.headD d).maxUsers then a else s.headD d := by
  cases s with
  | nil => exact absurd rfl hs
  | cons b t =>
    simp only [insertCR, List.headD_cons]
    split <;> simp

theorem bottleneckOf_cons_cons (a b : CategoryResult) (t : List CategoryResult) :
    bottleneckOf (a :: b :: t) =
      if a.maxUsers ≤ (bottleneckOf (b :: t)).maxUsers then a
      else bottleneckOf (b :: t) := by
  have h : sortByMaxUsers (a :: b :: t) = insertCR a (sortByMaxUsers (b :: t)) := rfl
  unfold bottleneckOf
  rw [h]
  exact headD_insertCR a dummyCR _ (sortByMaxUsers_ne_nil _ (by simp))

theorem bottleneckOf_mem : ∀ l : List CategoryResult, l ≠ [] → bottleneckOf l ∈ l
  | [], h => absurd rfl h
  | [a], _ => by simp [bottleneckOf, sortByMaxUsers, insertCR]
  | a :: b :: t, _ => by
    rw [bottleneckOf_cons_cons]
    split
    · exact List.mem_cons_self _ _
    · exact List.mem_cons_of_mem _ (bottleneckOf_mem (b :: t) (by simp))

theorem bottleneckOf_min : ∀ l : List CategoryResult, ∀ c ∈ l,
    (bottleneckOf l).maxUsers ≤ c.maxUsers
  | [], c, hc => absurd hc (List.not_mem_nil c)
  | [a], c, hc => by
    rw [List.mem_singleton] at hc
    subst hc
    simp [bottleneckOf, sortByMaxUsers, insertCR]
  | a :: b :: t, c, hc => by
    have hbt := bottleneckOf_min (b :: t)
    rw [bottleneckOf_cons_cons]
    rcases List.mem_cons.mp hc with rfl | hc2
    · split <;> omega
    · have h2 := hbt c hc2
      split <;> omega

theorem bottleneckOf_earliest : ∀ l : List CategoryResult,
    List.Pairwise (fun x y => catIdx x.category < catIdx y.category) l →
    ∀ c ∈ l, c.maxUsers ≤ (bottleneckOf l).maxUsers →
    catIdx (bottleneckOf l).category ≤ catIdx c.category
  | [], _, c, hc, _ => absurd hc (List.not_mem_nil c)
  | [a], _, c, hc, _ => by
    rw [List.mem_singleton] at hc
    subst hc
    simp [bottleneckOf, sortByMaxUsers, insertCR]
  | a :: b :: t, hp, c, hc, hle => by
    have hpa := (List.pairwise_cons.mp hp).1
    have hpt := (List.pairwise_cons.mp hp).2
    have ih := bottleneckOf_earliest (b :: t) hpt
    by_cases hab : a.maxUsers ≤ (bottleneckOf (b :: t)).maxUsers
    · rw [bottleneckOf_cons_cons, if_pos hab]
      rcases List.mem_cons.mp hc with rfl | hc2
      · exact le_refl _
      · exact le_of_lt (hpa c hc2)
    · rw [bottleneckOf_cons_cons, if_neg hab] at hle ⊢
      rcases List.mem_cons.mp hc with rfl | hc2
      · omega
      · exact ih c hc2 hle

/-! ## Helper lemmas about the average score -/

theorem avgScore_le_100 (l : List CategoryResult) (hne : l ≠ [])
    (hsc : ∀ c ∈ l, c.score ≤ 100) : avgScore l ≤ 100 := by
  have hlen : 0 < (l.length : Rat) := by
    have := List.length_pos.mpr hne
    exact_mod_cast this
  rw [avgScore, div_le_iff₀ hlen]
  have h1 : (l.map (·.score)).sum ≤ (l.map (fun _ => (100 : Rat))).sum :=
    List.sum_le_sum (fun c hc => hsc c hc)
  have h2 : (l.map (fun _ => (100 : Rat))).sum = (l.length : Rat) * 100 := by
    rw [List.map_const', List.sum_replicate, nsmul_eq_mul]
  rw [h2] at h1
  linarith

theorem avgScore_of_all_100 (l : List CategoryResult) (hne : l ≠ [])
    (hsc : ∀ c ∈ l, c.score = 100) : avgScore l = 100 := by
  have hlen : (l.length : Rat) ≠ 0 := by
    have := List.length_pos.mpr hne
    positivity
  have h1 : l.map (·.score) = l.map (fun _ => (100 : Rat)) :=
    List.map_congr_left (fun c hc => hsc c hc)
  rw [avgScore, h1, List.map_const', List.sum_replicate, nsmul_eq_mul]
  field_simp

theorem floor_mul_div_le (m : Nat) (x : Rat) (hx : x ≤ 100) :
    ⌊(m : Rat) * (x / 100)⌋ ≤ (m : Int) := by
  have h1 : (m : Rat) * (x / 100) ≤ (m : Rat) := by
    apply mul_le_of_le_one_right (by positivity)
    linarith
  calc ⌊(m : Rat) * (x / 100)⌋ ≤ ⌊(m : Rat)⌋ := Int.floor_le_floor h1
    _ = (m : Int) := Int.floor_natCast m

/-! ## Field lemmas for calculateAltitude -/

theorem calculateAltitude_maxConcurrentUsers (l : List CategoryResult) :
    (calculateAltitude l).maxConcurrentUsers =
      ⌊((bottleneckOf l).maxUsers : Rat) * (avgScore l / 100)⌋ := rfl

theorem calculateAltitude_bottleneck_category (l : List CategoryResult) :
    (calculateAltitude l).bottleneck.category = (bottleneckOf l).category := rfl

theorem calculateAltitude_bottleneck_maxUsers (l : List CategoryResult) :
    (calculateAltitude l).bottleneck.maxUsers = (bottleneckOf l).maxUsers := rfl

theorem calculateAltitude_altitudeLevel (l : List CategoryResult) :
    (calculateAltitude l).altitudeLevel =
      (usersToAltitude ⌊((bottleneckOf l).maxUsers : Rat) * (avgScore l / 100)⌋).level := rfl

/-! ## Claim C1 -/

/-- Concrete input refuting claim C1's formula: three applicable categories
with scores 100, 100, 99 and a common ceiling of 10000. -/
def c1CounterList : List CategoryResult :=
  [⟨.frontend, 100, 10000, false⟩, ⟨.backend, 100, 10000, false⟩,
   ⟨.database, 99, 10000, false⟩]

/-- Claim C1 counterexample: `calculateAltitude` multiplies the bottleneck
ceiling by the UNROUNDED mean (299/3), giving 9966 effective users, while the
claim's formula with the rounded clamped mean (100) gives 10000. -/
theorem c1_counterexample :
    (calculateAltitude c1CounterList).maxConcurrentUsers = 9966 ∧
    ⌊((bottleneckOf c1CounterList).maxUsers : Rat) *
      ((specOverallScore c1CounterList : Rat) / 100)⌋ = 10000 ∧
    (calculateAltitude c1CounterList).maxConcurrentUsers ≠
      ⌊((bottleneckOf c1CounterList).maxUsers : Rat) *
        ((specOverallScore c1CounterList : Rat) / 100)⌋ := by
  have hb : (bottleneckOf c1CounterList).maxUsers = 10000 := by decide
  have havg : avgScore c1CounterList = 299 / 3 := by
    simp [avgScore, c1CounterList]
    norm_num
  have h1 : (calculateAltitude c1CounterList).maxConcurrentUsers = 9966 := by
    rw [calculateAltitude_maxConcurrentUsers, hb, havg, Int.floor_eq_iff]
    norm_num
  have hround : round ((299 : Rat) / 3) = 100 := by
    rw [round_eq, Int.floor_eq_iff]
    norm_num
  have hspec : specOverallScore c1CounterList = 100 := by
    rw [specOverallScore, havg, hround]
    norm_num
  have h2 : ⌊((bottleneckOf c1CounterList).maxUsers : Rat) *
      ((specOverallScore c1CounterList : Rat) / 100)⌋ = 10000 := by
    rw [hb, hspec, Int.floor_eq_iff]
    norm_num
  refine ⟨h1, h2, by omega⟩

/-- Claim C1 (amended): for a non-empty set of applicable categories whose
scores all lie in [0,100], the aggregate effective-user count equals
floor(bottleneckCeiling × avg / 100) where avg is the EXACT (unrounded)
arithmetic mean of the applicable categories' scores; consequently the
reported maxConcurrentUsers never exceeds any applicable category's
tier-derived ceiling, in particular the bottleneck's. -/
theorem c1_effective_users_bounded (l : List CategoryResult) (hne : l ≠ [])
    (hsc : ∀ c ∈ l, 0 ≤ c.score ∧ c.score ≤ 100) :
    (calculateAltitude l).maxConcurrentUsers =
      ⌊((bottleneckOf l).maxUsers : Rat) * (avgScore l / 100)⌋ ∧
    ∀ c ∈ l, (calculateAltitude l).maxConcurrentUsers ≤ (c.maxUsers : Int) := by
  refine ⟨rfl, fun c hc => ?_⟩
  rw [calculateAltitude_maxConcurrentUsers]
  have h1 : avgScore l ≤ 100 := avgScore_le_100 l hne (fun c hc => (hsc c hc).2)
  have h2 := floor_mul_div_le (bottleneckOf l).maxUsers (avgScore l) h1
  have h3 := bottleneckOf_min l c hc
  omega

/-- Concrete input for the C1 witness. -/
def c1ExList : List CategoryResult :=
  [⟨.frontend, 50, 100, false⟩, ⟨.backend, 50, 200, false⟩]

/-- Witness for C1's amended theorem at a concrete input. -/
theorem c1_witness :
    (calculateAltitude c1ExList).maxConcurrentUsers =
      ⌊((bottleneckOf c1ExList).maxUsers : Rat) * (avgScore c1ExList / 100)⌋ ∧
    (calculateAltitude c1ExList).maxConcurrentUsers ≤ (200 : Int) := by
  have h := c1_effective_users_bounded c1ExList (by decide) (by decide)
  exact ⟨h.1, h.2 ⟨.backend, 50, 200, false⟩ (by decide)⟩

/-! ## Claim C2 -/

/-- Claim C2: for every non-empty list of applicable category results produced
in the fixed category declaration order, the reported bottleneck carries the
data of an input category whose ceiling is minimal, and among equal minimal
ceilings it is the category listed earliest in the declaration order. -/
theorem c2_bottleneck_minimal (l : List CategoryResult) (hne : l ≠ [])
    (hord : List.Pairwise (fun x y => catIdx x.category < catIdx y.category) l) :
    (∃ c ∈ l, c.category = (calculateAltitude l).bottleneck.category ∧
              c.maxUsers = (calculateAltitude l).bottleneck.maxUsers) ∧
    (∀ c ∈ l, (calculateAltitude l).bottleneck.maxUsers ≤ c.maxUsers) ∧
    (∀ c ∈ l, c.maxUsers = (calculateAltitude l).bottleneck.maxUsers →
      catIdx (calculateAltitude l).bottleneck.category ≤ catIdx c.category) := by
  rw [calculateAltitude_bottleneck_category]
  refine ⟨⟨bottleneckOf l, bottleneckOf_mem l hne, rfl, rfl⟩,
    fun c hc => bottleneckOf_min l c hc,
    fun c hc hEq => bottleneckOf_earliest l hord c hc (le_of_eq hEq)⟩

/-- Concrete input for the C2 witness: a tie on the minimal ceiling. -/
def c2ExList : List CategoryResult :=
  [⟨.frontend, 70, 100, false⟩, ⟨.backend, 80, 100, false⟩]

/-- Witness for C2 at a concrete tie: the bottleneck ceiling is the minimum
and the earliest declared category (frontend) wins the tie against backend. -/
theorem c2_witness :
    (calculateAltitude c2ExList).bottleneck.maxUsers ≤ 100 ∧
    catIdx (calculateAltitude c2ExList).bottleneck.category ≤
      catIdx Category.backend := by
  have h := c2_bottleneck_minimal c2ExList (by decide) (by decide)
  exact ⟨h.2.1 ⟨.backend, 80, 100, false⟩ (by decide),
         h.2.2 ⟨.backend, 80, 100, false⟩ (by decide) (by decide)⟩

/-! ## Claim C3 -/

/-- Claim C3 counterexample: under the claim's own ten-entry breakpoint table
(1 missing) and its highest-breakpoint-at-most rule, 1 user maps to GROUNDED,
while `usersToAltitude` assigns HANGAR. -/
theorem c3_counterexample :
    (usersToAltitude 1).level = Level.HANGAR ∧
    claimLevelOf 1 = Level.GROUNDED ∧
    (usersToAltitude 1).level ≠ claimLevelOf 1 := by
  have h1 : (usersToAltitude 1).level = Level.HANGAR := rfl
  have h2 : claimLevelOf 1 = Level.GROUNDED := rfl
  refine ⟨h1, h2, by rw [h1, h2]; intro h; exact absurd h (by decide)⟩

/-- The eleven-entry table lookup, unfolded: the highest matching breakpoint
wins because the fold tests the entries in ascending order. -/
theorem fixedLevelOf_eq (u : Nat) : fixedLevelOf u =
    if 1000000000 ≤ u then .VOYAGER
    else if 100000000 ≤ u then .GEOSTATIONARY
    else if 10000000 ≤ u then .ORBIT
    else if 1000000 ≤ u then .KARMAN
    else if 100000 ≤ u then .STRATOSPHERE
    else if 10000 ≤ u then .CRUISING
    else if 1000 ≤ u then .CLIMBING
    else if 100 ≤ u then .TAKEOFF
    else if 10 ≤ u then .RUNWAY
    else if 1 ≤ u then .HANGAR
    else if 0 ≤ u then .GROUNDED
    else .GROUNDED := rfl

/-- Interval-by-interval bridge between the code's descending strict-upper
conditionals and the table's highest-breakpoint selection rule. -/
theorem usersToAltitude_cast_level (u : Nat) :
    (usersToAltitude (u : Int)).level = fixedLevelOf u := by
  rw [fixedLevelOf_eq]
  have hcases : u = 0 ∨ (1 ≤ u ∧ u < 10) ∨ (10 ≤ u ∧ u < 100) ∨ (100 ≤ u ∧ u < 1000) ∨ (1000 ≤ u ∧ u < 10000) ∨ (10000 ≤ u ∧ u < 100000) ∨ (100000 ≤ u ∧ u < 1000000) ∨ (1000000 ≤ u ∧ u < 10000000) ∨ (10000000 ≤ u ∧ u < 100000000) ∨ (100000000 ≤ u ∧ u < 1000000000) ∨ 1000000000 ≤ u := by omega
  rcases hcases with h | ⟨h, h2⟩ | ⟨h, h2⟩ | ⟨h, h2⟩ | ⟨h, h2⟩ | ⟨h, h2⟩ | ⟨h, h2⟩ | ⟨h, h2⟩ | ⟨h, h2⟩ | ⟨h, h2⟩ | h
  · simp only [usersToAltitude,
      if_pos (by omega : ((u : Int) = 0)),
      if_neg (by omega : ¬(1000000000 ≤ u)),
      if_neg (by omega : ¬(100000000 ≤ u)),
      if_neg (by omega : ¬(10000000 ≤ u)),
      if_neg (by omega : ¬(1000000 ≤ u)),
      if_neg (by omega : ¬(100000 ≤ u)),
      if_neg (by omega : ¬(10000 ≤ u)),
      if_neg (by omega : ¬(1000 ≤ u)),
      if_neg (by omega : ¬(100 ≤ u)),
      if_neg (by omega : ¬(10 ≤ u)),
      if_neg (by omega : ¬(1 ≤ u)),
      if_pos (by omega : (0 ≤ u))]
  · simp only [usersToAltitude,
      if_neg (by omega : ¬((u : Int) = 0)),
      if_pos (by omega : ((u : Int) < 10)),
      if_neg (by omega : ¬(1000000000 ≤ u)),
      if_neg (by omega : ¬(100000000 ≤ u)),
      if_neg (by omega : ¬(10000000 ≤ u)),
      if_neg (by omega : ¬(1000000 ≤ u)),
      if_neg (by omega : ¬(100000 ≤ u)),
      if_neg (by omega : ¬(10000 ≤ u)),
      if_neg (by omega : ¬(1000 ≤ u)),
      if_neg (by omega : ¬(100 ≤ u)),
      if_neg (by omega : ¬(10 ≤ u)),
      if_pos (by omega : (1 ≤ u))]
  · simp only [usersToAltitude,
      if_neg (by omega : ¬((u : Int) = 0)),
      if_neg (by omega : ¬((u : Int) < 10)),
      if_pos (by omega : ((u : Int) < 100)),
      if_neg (by omega : ¬(1000000000 ≤ u)),
      if_neg (by omega : ¬(100000000 ≤ u)),
      if_neg (by omega : ¬(10000000 ≤ u)),
      if_neg (by omega : ¬(1000000 ≤ u)),
      if_neg (by omega : ¬(100000 ≤ u)),
      if_neg (by omega : ¬(10000 ≤ u)),
      if_neg (by omega : ¬(1000 ≤ u)),
      if_neg (by omega : ¬(100 ≤ u)),
      if_pos (by omega : (10 ≤ u))]
  · simp only [usersToAltitude,
      if_neg (by omega : ¬((u : Int) = 0)),
      if_neg (by omega : ¬((u : Int) < 10)),
      if_neg (by omega : ¬((u : Int) < 100)),
      if_pos (by omega : ((u : Int) < 1000)),
      if_neg (by omega : ¬(1000000000 ≤ u)),
      if_neg (by omega : ¬(100000000 ≤ u)),
      if_neg (by omega : ¬(10000000 ≤ u)),
      if_neg (by omega : ¬(1000000 ≤ u)),
      if_neg (by omega : ¬(100000 ≤ u)),
      if_neg (by omega : ¬(10000 ≤ u)),
      if_neg (by omega : ¬(1000 ≤ u)),
      if_pos (by omega : (100 ≤ u))]
  · simp only [usersToAltitude,
      if_neg (by omega : ¬((u : Int) = 0)),
      if_neg (by omega : ¬((u : Int) < 10)),
      if_neg (by omega : ¬((u : Int) < 100)),
      if_neg (by omega : ¬((u : Int) < 1000)),
      if_pos (by omega : ((u : Int) < 10000)),
      if_neg (by omega : ¬(1000000000 ≤ u)),
      if_neg (by omega : ¬(100000000 ≤ u)),
      if_neg (by omega : ¬(10000000 ≤ u)),
      if_neg (by omega : ¬(1000000 ≤ u)),
      if_neg (by omega : ¬(100000 ≤ u)),
      if_neg (by omega : ¬(10000 ≤ u)),
      if_pos (by omega : (1000 ≤ u))]
  · simp only [usersToAltitude,
      if_neg (by omega : ¬((u : Int) = 0)),
      if_neg (by omega : ¬((u : Int) < 10)),
      if_neg (by omega : ¬((u : Int) < 100)),
      if_neg (by omega : ¬((u : Int) < 1000)),
      if_neg (by omega : ¬((u : Int) < 10000)),
      if_pos (by omega : ((u : Int) < 100000)),
      if_neg (by omega : ¬(1000000000 ≤ u)),
      if_neg (by omega : ¬(100000000 ≤ u)),
      if_neg (by omega : ¬(10000000 ≤ u)),
      if_neg (by omega : ¬(1000000 ≤ u)),
      if_neg (by omega : ¬(100000 ≤ u)),
      if_pos (by omega : (10000 ≤ u))]
  · simp only [usersToAltitude,
      if_neg (by omega : ¬((u : Int) = 0)),
      if_neg (by omega : ¬((u : Int) < 10)),
      if_neg (by omega : ¬((u : Int) < 100)),
      if_neg (by omega : ¬((u : Int) < 1000)),
      if_neg (by omega : ¬((u : Int) < 10000)),
      if_neg (by omega : ¬((u : Int) < 100000)),
      if_pos (by omega : ((u : Int) < 1000000)),
      if_neg (by omega : ¬(1000000000 ≤ u)),
      if_neg (by omega : ¬(100000000 ≤ u)),
      if_neg (by omega : ¬(10000000 ≤ u)),
      if_neg (by omega : ¬(1000000 ≤ u)),
      if_pos (by omega : (100000 ≤ u))]
  · simp only [usersToAltitude,
      if_neg (by omega : ¬((u : Int) = 0)),
      if_neg (by omega : ¬((u : Int) < 10)),
      if_neg (by omega : ¬((u : Int) < 100)),
      if_neg (by omega : ¬((u : Int) < 1000)),
      if_neg (by omega : ¬((u : Int) < 10000)),
      if_neg (by omega : ¬((u : Int) < 100000)),
      if_neg (by omega : ¬((u : Int) < 1000000)),
      if_pos (by omega : ((u : Int) < 10000000)),
      if_neg (by omega : ¬(1000000000 ≤ u)),
      if_neg (by omega : ¬(100000000 ≤ u)),
      if_neg (by omega : ¬(10000000 ≤ u)),
      if_pos (by omega : (1000000 ≤ u))]
  · simp only [usersToAltitude,
      if_neg (by omega : ¬((u : Int) = 0)),
      if_neg (by omega : ¬((u : Int) < 10)),
      if_neg (by omega : ¬((u : Int) < 100)),
      if_neg (by omega : ¬((u : Int) < 1000)),
      if_neg (by omega : ¬((u : Int) < 10000)),
      if_neg (by omega : ¬((u : Int) < 100000)),
      if_neg (by omega : ¬((u : Int) < 1000000)),
      if_neg (by omega : ¬((u : Int) < 10000000)),
      if_pos (by omega : ((u : Int) < 100000000)),
      if_neg (by omega : ¬(1000000000 ≤ u)),
      if_neg (by omega : ¬(100000000 ≤ u)),
      if_pos (by omega : (10000000 ≤ u))]
  · simp only [usersToAltitude,
      if_neg (by omega : ¬((u : Int) = 0)),
      if_neg (by omega : ¬((u : Int) < 10)),
      if_neg (by omega : ¬((u : Int) < 100)),
      if_neg (by omega : ¬((u : Int) < 1000)),
      if_neg (by omega : ¬((u : Int) < 10000)),
      if_neg (by omega : ¬((u : Int) < 100000)),
      if_neg (by omega : ¬((u : Int) < 1000000)),
      if_neg (by omega : ¬((u : Int) < 10000000)),
      if_neg (by omega : ¬((u : Int) < 100000000)),
      if_pos (by omega : ((u : Int) < 1000000000)),
      if_neg (by omega : ¬(1000000000 ≤ u)),
      if_pos (by omega : (100000000 ≤ u))]
  · simp only [usersToAltitude,
      if_neg (by omega : ¬((u : Int) = 0)),
      if_neg (by omega : ¬((u : Int) < 10)),
      if_neg (by omega : ¬((u : Int) < 100)),
      if_neg (by omega : ¬((u : Int) < 1000)),
      if_neg (by omega : ¬((u : Int) < 10000)),
      if_neg (by omega : ¬((u : Int) < 100000)),
      if_neg (by omega : ¬((u : Int) < 1000000)),
      if_neg (by omega : ¬((u : Int) < 10000000)),
      if_neg (by omega : ¬((u : Int) < 100000000)),
      if_neg (by omega : ¬((u : Int) < 1000000000)),
      if_pos (by omega : (1000000000 ≤ u))]

/-- Claim C3 (amended): the level table has ELEVEN ascending breakpoints
0, 1, 10, 100, 1000, 10000, 100000, 1000000, 10000000, 100000000, 1000000000
(one per named level; the claim omitted 1); for every non-negative user count
the assigned level is the one of the highest breakpoint ≤ the count, and the
boundary pairs 9/10, 99/100, 999/1000 land in adjacent distinct levels. -/
theorem c3_level_table :
    (∀ u : Nat, (usersToAltitude (u : Int)).level = fixedLevelOf u) ∧
    (usersToAltitude 9).level = Level.HANGAR ∧
    (usersToAltitude 10).level = Level.RUNWAY ∧
    (usersToAltitude 99).level = Level.RUNWAY ∧
    (usersToAltitude 100).level = Level.TAKEOFF ∧
    (usersToAltitude 999).level = Level.TAKEOFF ∧
    (usersToAltitude 1000).level = Level.CLIMBING :=
  ⟨usersToAltitude_cast_level, rfl, rfl, rfl, rfl, rfl, rfl⟩

/-! ## Claim C4 -/

/-- Claim C4: with one scorer per category, the web analysis has exactly 12
category scores, one per fixed category in declaration order, and a category
not applicable to a platform never appears in that platform's result list. -/
theorem c4_applicability (scorer : Category → CategoryScore)
    (hs : ∀ c, (scorer c).category = c) :
    (analyzeCategories scorer Platform.web).length = 12 ∧
    (analyzeCategories scorer Platform.web).map (·.category) = CATEGORIES ∧
    (∀ p c, c ∉ PLATFORM_CATEGORIES p →
      ∀ cs ∈ analyzeCategories scorer p, cs.category ≠ c) := by
  refine ⟨by rw [analyzeCategories, List.length_map]; rfl, ?_, ?_⟩
  · have h1 : (analyzeCategories scorer Platform.web).map (·.category) =
        (PLATFORM_CATEGORIES Platform.web).map (fun c => (scorer c).category) := by
      rw [analyzeCategories, List.map_map]
      rfl
    rw [h1, List.map_congr_left (fun c _ => hs c)]
    rfl
  · intro p c hnc cs hcs
    rw [analyzeCategories] at hcs
    obtain ⟨c0, hc0, rfl⟩ := List.mem_map.mp hcs
    rw [hs c0]
    rintro rfl
    exact hnc hc0

/-- A trivial concrete scorer used to instantiate the spec-modelled analyzer. -/
def trivialScorer (c : Category) : CategoryScore :=
  { category := c, label := "", score := 0, detected := [], gaps := [],
    canGenerate := false }

/-- Witness for C4 with a concrete scorer. -/
theorem c4_witness :
    (analyzeCategories trivialScorer Platform.web).length = 12 ∧
    (analyzeCategories trivialScorer Platform.web).map (·.category) = CATEGORIES := by
  have h := c4_applicability trivialScorer (fun c => rfl)
  exact ⟨h.1, h.2.1⟩

/-! ## Claim C5 -/

/-- Every applicable web category at score 100 with its tier-6 ceiling. -/
def perfectWebList : List CategoryResult :=
  (PLATFORM_CATEGORIES .web).map (fun c => ⟨c, 100, maxUsersIfPerfect c, false⟩)

/-- Claim C5 counterexample: with every applicable web category at score 100,
the reported bottleneck is frontend (ceiling 10000, the globally SMALLEST
tier-6 ceiling), while database is applicable with the larger ceiling
10000000 — so the bottleneck is not the category with the globally largest
tier-6 ceiling, contradicting the claim. -/
theorem c5_counterexample :
    (calculateAltitude perfectWebList).bottleneck.category = Category.frontend ∧
    (calculateAltitude perfectWebList).bottleneck.maxUsers = 10000 ∧
    (⟨.database, 100, maxUsersIfPerfect .database, false⟩ : CategoryResult) ∈
      perfectWebList ∧
    (calculateAltitude perfectWebList).bottleneck.maxUsers <
      maxUsersIfPerfect Category.database := by
  refine ⟨by decide, by decide, by decide, by decide⟩

/-- Claim C5 (amended): for every non-empty declaration-ordered list of
applicable category results all scoring exactly 100, the mean score is 100,
the reported bottleneck is the applicable category with the globally SMALLEST
tier-derived ceiling (ties broken by declaration order), and the effective
user count equals that smallest ceiling (multiplier 1.0), which alone
determines the altitude level. -/
theorem c5_perfect_scores (l : List CategoryResult) (hne : l ≠ [])
    (hord : List.Pairwise (fun x y => catIdx x.category < catIdx y.category) l)
    (hsc : ∀ c ∈ l, c.score = 100) :
    avgScore l = 100 ∧
    (∀ c ∈ l, (calculateAltitude l).bottleneck.maxUsers ≤ c.maxUsers) ∧
    (∀ c ∈ l, c.maxUsers = (calculateAltitude l).bottleneck.maxUsers →
      catIdx (calculateAltitude l).bottleneck.category ≤ catIdx c.category) ∧
    (calculateAltitude l).maxConcurrentUsers = ((bottleneckOf l).maxUsers : Int) ∧
    (calculateAltitude l).altitudeLevel =
      (usersToAltitude ((bottleneckOf l).maxUsers : Int)).level := by
  have havg : avgScore l = 100 := avgScore_of_all_100 l hne hsc
  have heff : ⌊((bottleneckOf l).maxUsers : Rat) * (avgScore l / 100)⌋ =
      ((bottleneckOf l).maxUsers : Int) := by
    rw [havg]
    norm_num [Int.floor_natCast]
  refine ⟨havg, fun c hc => bottleneckOf_min l c hc,
    fun c hc hEq => bottleneckOf_earliest l hord c hc (le_of_eq hEq), ?_, ?_⟩
  · rw [calculateAltitude_maxConcurrentUsers, heff]
  · rw [calculateAltitude_altitudeLevel, heff]

/-- Witness for C5's amended theorem at the perfect web corpus. -/
theorem c5_witness :
    avgScore perfectWebList = 100 ∧
    (calculateAltitude perfectWebList).maxConcurrentUsers =
      ((bottleneckOf perfectWebList).maxUsers : Int) ∧
    (calculateAltitude perfectWebList).altitudeLevel =
      (usersToAltitude ((bottleneckOf perfectWebList).maxUsers : Int)).level := by
  have h := c5_perfect_scores perfectWebList (by decide) (by decide) (by decide)
  exact ⟨h.1, h.2.2.2.1, h.2.2.2.2⟩

/-! ## Claim C8 -/

/-- Claim C8: if any of the underlying database operations throws during a
rateLimit call, the limiter fails open: it returns success = true with
remaining = limit - 1, instead of rejecting the request or raising. -/
theorem c8_fail_open (identifier : String) (now limit : Int) (windowMs : Rat)
    (del : Except Unit Unit) (cnt : Except Unit Nat) (crt : Except Unit Unit)
    (h : ∃ e, rateLimitTry now limit windowMs del cnt crt = .error e) :
    (rateLimit identifier now limit windowMs del cnt crt).success = true ∧
    (rateLimit identifier now limit windowMs del cnt crt).remaining = limit - 1 := by
  obtain ⟨e, he⟩ := h
  unfold rateLimit
  rw [he]
  exact ⟨rfl, rfl⟩

/-- Witness for C8: the DELETE step throws, the call still succeeds with
remaining = 4. -/
theorem c8_witness :
    (rateLimit "user" 0 5 10 (.error ()) (.ok 0) (.ok ())).success = true ∧
    (rateLimit "user" 0 5 10 (.error ()) (.ok 0) (.ok ())).remaining = 4 := by
  have h := c8_fail_open "user" 0 5 10 (.error ()) (.ok 0) (.ok ()) ⟨(), rfl⟩
  refine ⟨h.1, ?_⟩
  rw [h.2]
  decide

/-! ## Claim C10 -/

/-- Claim C10: whenever the database operations succeed, the returned reset
timestamp equals ceil(windowStart + windowMs), which is exactly the current
time `now` of the call, in both the allowed and the denied branch. -/
theorem c10_reset_is_now (now limit : Int) (windowMs : Rat)
    (del : Except Unit Unit) (cnt : Except Unit Nat) (crt : Except Unit Unit)
    (r : RateLimitResult)
    (h : rateLimitTry now limit windowMs del cnt crt = .ok r) :
    r.reset = ((⌈((now : Rat) - windowMs) + windowMs⌉ : Int) : Rat) ∧
    r.reset = ((now : Int) : Rat) := by
  have hceil : (⌈((now : Rat) - windowMs) + windowMs⌉ : Int) = now := by
    rw [sub_add_cancel, Int.ceil_intCast]
  cases del with
  | error e => simp [rateLimitTry] at h
  | ok u1 =>
    cases cnt with
    | error e => simp [rateLimitTry] at h
    | ok count =>
      by_cases hcl : (count : Int) ≥ limit
      · simp only [rateLimitTry, if_pos hcl, Except.ok.injEq] at h
        subst h
        exact ⟨rfl, by rw [hceil]⟩
      · cases crt with
        | error e => simp [rateLimitTry, if_neg hcl] at h
        | ok u2 =>
          simp only [rateLimitTry, if_neg hcl, Except.ok.injEq] at h
          subst h
          exact ⟨rfl, by rw [hceil]⟩

/-- Witness for C10 on a successful call. -/
theorem c10_witness :
    ({ success := true,
       reset := ((⌈((0 : Rat) - 10) + 10⌉ : Int) : Rat),
       remaining := 4 } : RateLimitResult).reset = ((0 : Int) : Rat) :=
  (c10_reset_is_now 0 5 10 (.ok ()) (.ok 0) (.ok ())
    { success := true,
      reset := ((⌈((0 : Rat) - 10) + 10⌉ : Int) : Rat),
      remaining := 4 } (by norm_num [rateLimitTry])).2

/-! ## Branch lemmas for the gap-selection chain -/

theorem selectTargetGaps_ids (a : CompletenessAnalysis)
    (gapsToFix : Option (List String)) (io : Bool) (cats : Option (List Category))
    (h : (gapsToFix.getD []) ≠ []) :
    selectTargetGaps a gapsToFix io cats =
      (allGaps a).filter (fun g => (gapsToFix.getD []).contains g.id) := by
  rw [selectTargetGaps, if_pos (List.length_pos.mpr h)]

theorem selectTargetGaps_instantOnly (a : CompletenessAnalysis)
    (gapsToFix : Option (List String)) (cats : Option (List Category))
    (h : (gapsToFix.getD []) = []) :
    selectTargetGaps a gapsToFix true cats = getInstantFixGaps a := by
  simp [selectTargetGaps, h]

theorem selectTargetGaps_cats (a : CompletenessAnalysis)
    (gapsToFix : Option (List String)) (cats : List Category)
    (h1 : (gapsToFix.getD []) = []) (h2 : cats ≠ []) :
    selectTargetGaps a gapsToFix false (some cats) =
      ((a.categories.filter (fun c => cats.contains c.category)).map (·.gaps)).flatten := by
  simp [selectTargetGaps, h1, List.length_pos, h2]

theorem selectTargetGaps_default (a : CompletenessAnalysis)
    (gapsToFix : Option (List String)) (cats : Option (List Category))
    (h1 : (gapsToFix.getD []) = []) (h3 : (cats.getD []) = []) :
    selectTargetGaps a gapsToFix false cats = getInstantFixGaps a := by
  simp [selectTargetGaps, h1, h3]

/-! ## Claim C9 -/

/-- Claim C9: the selection filters of the generate endpoint have fixed
precedence: a non-empty gapsToFix id list overrides both instantOnly and
categories; otherwise instantOnly overrides categories; and with no filter at
all (gapsToFix absent or an empty array, instantOnly false, categories absent
or empty) only instant-fix gaps are selected. -/
theorem c9_filter_precedence (a : CompletenessAnalysis)
    (gapsToFix : Option (List String)) (instantOnly : Bool)
    (cats : Option (List Category)) :
    ((gapsToFix.getD []) ≠ [] → ∀ io2 cats2,
      selectTargetGaps a gapsToFix io2 cats2 =
        (allGaps a).filter (fun g => (gapsToFix.getD []).contains g.id)) ∧
    ((gapsToFix.getD []) = [] →
      selectTargetGaps a gapsToFix true cats = getInstantFixGaps a) ∧
    ((gapsToFix.getD []) = [] → instantOnly = false → (cats.getD []) = [] →
      selectTargetGaps a gapsToFix instantOnly cats = getInstantFixGaps a) :=
  ⟨fun h io2 cats2 => selectTargetGaps_ids a gapsToFix io2 cats2 h,
   fun h => selectTargetGaps_instantOnly a gapsToFix cats h,
   fun h1 h2 h3 => h2 ▸ selectTargetGaps_default a gapsToFix cats h1 h3⟩

/-! ## Shared concrete analysis for witnesses -/

def exGap1 : Gap :=
  { id := "g1", category := .testing, title := "No test framework",
    description := "", severity := .warning, confidence := .high,
    fixType := .instant }

def exGap2 : Gap :=
  { id := "g2", category := .security, title := "Missing CSP header",
    description := "", severity := .critical, confidence := .high,
    fixType := .guided }

def exAnalysis : CompletenessAnalysis :=
  { repoUrl := "https://github.com/test/repo",
    techStack := { platform := .web, languages := ["typescript"],
                   frameworks := ["next.js", "react"] },
    overallScore := 50,
    categories :=
      [{ category := .testing, label := "Testing", score := 40, detected := [],
         gaps := [exGap1], canGenerate := true },
       { category := .security, label := "Security", score := 60, detected := [],
         gaps := [exGap2], canGenerate := false }] }

/-- Witness for C9: a non-empty gapsToFix list wins over instantOnly and
categories, selecting exactly the gap with the requested id. -/
theorem c9_witness :
    selectTargetGaps exAnalysis (some ["g2"]) true (some [Category.testing]) =
      [exGap2] := by
  have h := (c9_filter_precedence exAnalysis (some ["g2"]) true
    (some [Category.testing])).1 (by decide) true (some [.testing])
  rw [h]
  decide

/-! ## String containment helpers -/

theorem strData_append (s t : String) : (s ++ t).data = s.data ++ t.data := by
  cases s
  cases t
  rfl

theorem strContains_self (s : String) : strContains s s :=
  ⟨[], [], by simp⟩

theorem strContains_prepend (t r : String) : strContains (t ++ r) t :=
  ⟨[], r.data, by rw [strData_append]; simp⟩

theorem strContains_append_left (s t f : String) (h : strContains s f) :
    strContains (s ++ t) f := by
  obtain ⟨l, r, hd⟩ := h
  exact ⟨l, r ++ t.data, by rw [strData_append, hd]; simp⟩

theorem strContains_append_right (s t f : String) (h : strContains t f) :
    strContains (s ++ t) f := by
  obtain ⟨l, r, hd⟩ := h
  exact ⟨s.data ++ l, r, by rw [strData_append, hd]; simp⟩

theorem joinComma_contains (l : List String) (fw : String) (h : fw ∈ l) :
    strContains (joinComma l) fw := by
  induction l with
  | nil => exact absurd h (List.not_mem_nil fw)
  | cons s rest ih =>
    cases rest with
    | nil =>
      rw [List.mem_singleton] at h
      subst h
      exact strContains_self fw
    | cons b t =>
      rcases List.mem_cons.mp h with rfl | h2
      · show strContains ((fw ++ ", ") ++ joinComma (b :: t)) fw
        exact strContains_append_left _ _ _ (strContains_prepend fw ", ")
      · show strContains ((s ++ ", ") ++ joinComma (b :: t)) fw
        exact strContains_append_right _ _ _ (ih h2)

/-! ## Claim C7 -/

/-- Claim C7: the analysis summary contains the literal headings
"Production Readiness" and "Category Scores" and the name of every framework
in the detected tech-stack profile. -/
theorem c7_summary_contents (a : CompletenessAnalysis) :
    strContains (formatAnalysisSummary a) "Production Readiness" ∧
    strContains (formatAnalysisSummary a) "Category Scores" ∧
    ∀ fw ∈ a.techStack.frameworks, strContains (formatAnalysisSummary a) fw := by
  unfold formatAnalysisSummary
  refine ⟨?_, ?_, fun fw hfw => ?_⟩
  · exact strContains_append_left _ _ _ (strContains_prepend _ _)
  · exact strContains_append_right _ _ _ (strContains_append_right _ _ _
      (strContains_append_right _ _ _ (strContains_prepend _ _)))
  · exact strContains_append_right _ _ _ (strContains_append_right _ _ _
      (strContains_append_left _ _ _ (strContains_append_right _ _ _
        (strContains_append_left _ _ _ (joinComma_contains _ fw hfw)))))

/-- Witness for C7: the concrete analysis summary contains both detected
framework names. -/
theorem c7_witness :
    strContains (formatAnalysisSummary exAnalysis) "next.js" ∧
    strContains (formatAnalysisSummary exAnalysis) "react" := by
  have h := (c7_summary_contents exAnalysis).2.2
  exact ⟨h "next.js" (by decide), h "react" (by decide)⟩

/-! ## Grouping lemmas for the insertion-ordered Map -/

theorem mapGet_not_mem (m : List (Category × List Gap)) (c : Category)
    (h : c ∉ m.map Prod.fst) : mapGet m c = none := by
  induction m with
  | nil => rfl
  | cons e rest ih =>
    rw [List.map_cons, List.mem_cons, not_or] at h
    simp only [mapGet, if_neg (Ne.symm h.1)]
    exact ih h.2

theorem mapSet_not_mem (m : List (Category × List Gap)) (c : Category) (v : List Gap)
    (h : c ∉ m.map Prod.fst) : mapSet m c v = m ++ [(c, v)] := by
  induction m with
  | nil => rfl
  | cons e rest ih =>
    rw [List.map_cons, List.mem_cons, not_or] at h
    simp only [mapSet, if_neg (Ne.symm h.1), List.cons_append]
    rw [ih h.2]

theorem mapGet_append_self (m : List (Category × List Gap)) (c : Category)
    (v : List Gap) (h : c ∉ m.map Prod.fst) : mapGet (m ++ [(c, v)]) c = some v := by
  induction m with
  | nil => simp [mapGet]
  | cons e rest ih =>
    rw [List.map_cons, List.mem_cons, not_or] at h
    simp only [List.cons_append, mapGet, if_neg (Ne.symm h.1)]
    exact ih h.2

theorem mapSet_append_self (m : List (Category × List Gap)) (c : Category)
    (v w : List Gap) (h : c ∉ m.map Prod.fst) :
    mapSet (m ++ [(c, v)]) c w = m ++ [(c, w)] := by
  induction m with
  | nil => simp [mapSet]
  | cons e rest ih =>
    rw [List.map_cons, List.mem_cons, not_or] at h
    simp only [List.cons_append, mapSet, if_neg (Ne.symm h.1), List.append_eq]
    rw [ih h.2]

theorem foldl_groupStep_block (gs : List Gap) (c : Category) :
    ∀ (m : List (Category × List Gap)) (acc : List Gap),
    (∀ g ∈ gs, g.category = c) → c ∉ m.map Prod.fst →
    gs.foldl groupStep (m ++ [(c, acc)]) = m ++ [(c, acc ++ gs)] := by
  induction gs with
  | nil =>
    intro m acc _ _
    simp
  | cons g rest ih =>
    intro m acc hcat hnm
    have hg : g.category = c := hcat g (List.mem_cons_self g rest)
    have hstep : groupStep (m ++ [(c, acc)]) g = m ++ [(c, acc ++ [g])] := by
      rw [groupStep, hg, mapGet_append_self m c acc hnm, Option.getD_some]
      exact mapSet_append_self m c acc (acc ++ [g]) hnm
    rw [List.foldl_cons, hstep,
      ih m (acc ++ [g]) (fun x hx => hcat x (List.mem_cons_of_mem _ hx)) hnm]
    simp

theorem foldl_groupStep_fresh (gs : List Gap) (c : Category)
    (m : List (Category × List Gap)) (hne : gs ≠ [])
    (hcat : ∀ g ∈ gs, g.category = c) (hnm : c ∉ m.map Prod.fst) :
    gs.foldl groupStep m = m ++ [(c, gs)] := by
  cases gs with
  | nil => exact absurd rfl hne
  | cons g rest =>
    have hg : g.category = c := hcat g (List.mem_cons_self g rest)
    have hstep : groupStep m g = m ++ [(c, [g])] := by
      rw [groupStep, hg, mapGet_not_mem m c hnm, Option.getD_none, List.nil_append]
      exact mapSet_not_mem m c [g] hnm
    rw [List.foldl_cons, hstep,
      foldl_groupStep_block rest c m [g]
        (fun x hx => hcat x (List.mem_cons_of_mem _ hx)) hnm]
    simp

theorem foldl_groupStep_blocks (blocks : List (Category × List Gap)) :
    ∀ (m : List (Category × List Gap)),
    (∀ b ∈ blocks, ∀ g ∈ b.2, g.category = b.1) →
    (blocks.map Prod.fst).Nodup →
    (∀ b ∈ blocks, b.1 ∉ m.map Prod.fst) →
    ((blocks.map Prod.snd).flatten).foldl groupStep m =
      m ++ blocks.filter (fun b => !b.2.isEmpty) := by
  induction blocks with
  | nil =>
    intro m _ _ _
    simp
  | cons b rest ih =>
    intro m hwf hnd hdisj
    have hwfr : ∀ x ∈ rest, ∀ g ∈ x.2, g.category = x.1 :=
      fun x hx => hwf x (List.mem_cons_of_mem _ hx)
    have hndr : (rest.map Prod.fst).Nodup := (List.nodup_cons.mp (by simpa using hnd)).2
    have hfst : b.1 ∉ rest.map Prod.fst := (List.nodup_cons.mp (by simpa using hnd)).1
    rw [List.map_cons, List.flatten_cons, List.foldl_append]
    by_cases hbe : b.2 = []
    · rw [hbe, List.foldl_nil]
      have hres := ih m hwfr hndr (fun x hx => hdisj x (List.mem_cons_of_mem _ hx))
      rw [hres, List.filter_cons_of_neg (by simp [hbe])]
    · have h1 : b.2.foldl groupStep m = m ++ [(b.1, b.2)] :=
        foldl_groupStep_fresh b.2 b.1 m hbe
          (hwf b (List.mem_cons_self b rest)) (hdisj b (List.mem_cons_self b rest))
      have hdisj2 : ∀ x ∈ rest, x.1 ∉ (m ++ [(b.1, b.2)]).map Prod.fst := by
        intro x hx
        rw [List.map_append, List.mem_append]
        rintro (hmem | hmem)
        · exact hdisj x (List.mem_cons_of_mem _ hx) hmem
        · simp only [List.map_cons, List.map_nil, List.mem_singleton] at hmem
          exact hfst (hmem ▸ List.mem_map_of_mem Prod.fst hx)
      rw [h1, ih (m ++ [(b.1, b.2)]) hwfr hndr hdisj2,
        List.filter_cons_of_pos (by simp [hbe])]
      simp

/-- The grouping loop of the POST handler, applied to a concatenation of
per-category blocks with pairwise distinct categories, yields exactly the
non-empty blocks in their original order. -/
theorem gapsByCategory_blocks (blocks : List (Category × List Gap))
    (hwf : ∀ b ∈ blocks, ∀ g ∈ b.2, g.category = b.1)
    (hnd : (blocks.map Prod.fst).Nodup) :
    gapsByCategory ((blocks.map Prod.snd).flatten) =
      blocks.filter (fun b => !b.2.isEmpty) := by
  have h := foldl_groupStep_blocks blocks [] hwf hnd (by simp)
  simpa [gapsByCategory] using h

/-! ## From selections to per-category blocks -/

theorem filter_flatten (p : Gap → Bool) :
    ∀ L : List (List Gap), L.flatten.filter p = (L.map (·.filter p)).flatten
  | [] => rfl
  | l :: rest => by
    rw [List.flatten_cons, List.filter_append, filter_flatten p rest, List.map_cons,
      List.flatten_cons]

/-- The per-category blocks of the gaps surviving a gap-level filter. -/
def filterBlocks (a : CompletenessAnalysis) (p : Gap → Bool) :
    List (Category × List Gap) :=
  a.categories.map (fun cs => (cs.category, cs.gaps.filter p))

/-- The per-category blocks selected by a category-level filter. -/
def catBlocks (a : CompletenessAnalysis) (q : CategoryScore → Bool) :
    List (Category × List Gap) :=
  (a.categories.filter q).map (fun cs => (cs.category, cs.gaps))

theorem allGaps_filter_eq_blocks (a : CompletenessAnalysis) (p : Gap → Bool) :
    (allGaps a).filter p = ((filterBlocks a p).map Prod.snd).flatten := by
  rw [allGaps, filter_flatten, filterBlocks, List.map_map, List.map_map]
  rfl

theorem selectCats_eq_blocks (a : CompletenessAnalysis) (q : CategoryScore → Bool) :
    ((a.categories.filter q).map (·.gaps)).flatten =
      ((catBlocks a q).map Prod.snd).flatten := by
  rw [catBlocks, List.map_map]
  rfl

theorem blocks_fst_nodup (M : List CategoryScore) (f : CategoryScore → List Gap)
    (hord : List.Pairwise (fun x y => catIdx x.category < catIdx y.category) M) :
    ((M.map (fun cs => (cs.category, f cs))).map Prod.fst).Nodup := by
  rw [List.map_map]
  exact List.Pairwise.map _
    (fun a b hlt heq => by
      have heq2 : a.category = b.category := heq
      rw [heq2] at hlt
      exact lt_irrefl _ hlt) hord

theorem blocks_pairwise (M : List CategoryScore) (f : CategoryScore → List Gap)
    (hord : List.Pairwise (fun x y => catIdx x.category < catIdx y.category) M) :
    (M.map (fun cs => (cs.category, f cs))).Pairwise
      (fun x y => catIdx x.1 < catIdx y.1) :=
  List.Pairwise.map _ (fun _ _ h => h) hord

theorem keys_pairwise (blocks : List (Category × List Gap))
    (h : List.Pairwise (fun x y => catIdx x.1 < catIdx y.1) blocks)
    (p : (Category × List Gap) → Bool) :
    ((blocks.filter p).map Prod.fst).Pairwise (fun x y => catIdx x < catIdx y) :=
  List.Pairwise.map _ (fun _ _ hab => hab)
    (List.Pairwise.sublist (List.filter_sublist blocks) h)

theorem gapsByCategory_filter (a : CompletenessAnalysis) (p : Gap → Bool)
    (hord : List.Pairwise (fun x y => catIdx x.category < catIdx y.category)
      a.categories)
    (hgap : ∀ cs ∈ a.categories, ∀ g ∈ cs.gaps, g.category = cs.category) :
    gapsByCategory ((allGaps a).filter p) =
      (filterBlocks a p).filter (fun b => !b.2.isEmpty) := by
  rw [allGaps_filter_eq_blocks]
  refine gapsByCategory_blocks _ ?_ (blocks_fst_nodup a.categories _ hord)
  intro b hb g hg
  obtain ⟨cs, hcs, rfl⟩ := List.mem_map.mp hb
  exact hgap cs hcs g (List.mem_of_mem_filter hg)

theorem gapsByCategory_cats (a : CompletenessAnalysis) (q : CategoryScore → Bool)
    (hord : List.Pairwise (fun x y => catIdx x.category < catIdx y.category)
      a.categories)
    (hgap : ∀ cs ∈ a.categories, ∀ g ∈ cs.gaps, g.category = cs.category) :
    gapsByCategory (((a.categories.filter q).map (·.gaps)).flatten) =
      (catBlocks a q).filter (fun b => !b.2.isEmpty) := by
  rw [selectCats_eq_blocks]
  refine gapsByCategory_blocks _ ?_
    (blocks_fst_nodup _ _ (List.Pairwise.sublist (List.filter_sublist _) hord))
  intro b hb g hg
  obtain ⟨cs, hcs, rfl⟩ := List.mem_map.mp hb
  exact hgap cs (List.mem_of_mem_filter hcs) g hg

/-! ## Claim C6 -/

/-- Claim C6: for a completed analysis (categories in the fixed declaration
order, each gap attached to its own category), each selection filter — explicit
gap ids, explicit categories, or instant-only — yields as grouping exactly the
gaps matched by that filter, one block per category holding its matched gaps
in order, empty categories omitted; and under every filter the grouped
category keys appear in the fixed declaration order. As the embedded selection
and grouping are pure functions of (analysis, filter), the same grouping is
produced on every run. -/
theorem c6_grouping (a : CompletenessAnalysis)
    (hord : List.Pairwise (fun x y => catIdx x.category < catIdx y.category)
      a.categories)
    (hgap : ∀ cs ∈ a.categories, ∀ g ∈ cs.gaps, g.category = cs.category) :
    (∀ gtf : Option (List String), (gtf.getD []) ≠ [] → ∀ io cats,
      gapsByCategory (selectTargetGaps a gtf io cats) =
        (filterBlocks a (fun g => (gtf.getD []).contains g.id)).filter
          (fun b => !b.2.isEmpty)) ∧
    (∀ gtf cats, (gtf.getD []) = [] →
      gapsByCategory (selectTargetGaps a gtf true cats) =
        (filterBlocks a (fun g => g.fixType == FixType.instant)).filter
          (fun b => !b.2.isEmpty)) ∧
    (∀ gtf (cats : List Category), (gtf.getD []) = [] → cats ≠ [] →
      gapsByCategory (selectTargetGaps a gtf false (some cats)) =
        (catBlocks a (fun cs => cats.contains cs.category)).filter
          (fun b => !b.2.isEmpty)) ∧
    (∀ gtf io cats,
      ((gapsByCategory (selectTargetGaps a gtf io cats)).map Prod.fst).Pairwise
        (fun x y => catIdx x < catIdx y)) := by
  have hinstant : ∀ gtf cats, (gtf.getD []) = [] →
      gapsByCategory (selectTargetGaps a gtf true cats) =
        (filterBlocks a (fun g => g.fixType == FixType.instant)).filter
          (fun b => !b.2.isEmpty) := by
    intro gtf cats h
    rw [selectTargetGaps_instantOnly a gtf cats h]
    unfold getInstantFixGaps
    exact gapsByCategory_filter a _ hord hgap
  have hdefault : ∀ gtf cats, (gtf.getD []) = [] → (cats.getD []) = [] →
      gapsByCategory (selectTargetGaps a gtf false cats) =
        (filterBlocks a (fun g => g.fixType == FixType.instant)).filter
          (fun b => !b.2.isEmpty) := by
    intro gtf cats h1 h3
    rw [selectTargetGaps_default a gtf cats h1 h3]
    unfold getInstantFixGaps
    exact gapsByCategory_filter a _ hord hgap
  refine ⟨?_, hinstant, ?_, ?_⟩
  · intro gtf h io cats
    rw [selectTargetGaps_ids a gtf io cats h]
    exact gapsByCategory_filter a _ hord hgap
  · intro gtf cats h1 h2
    rw [selectTargetGaps_cats a gtf cats h1 h2]
    exact gapsByCategory_cats a _ hord hgap
  · intro gtf io cats
    by_cases h1 : (gtf.getD []) = []
    · cases io with
      | true =>
        rw [hinstant gtf cats h1]
        exact keys_pairwise _ (blocks_pairwise a.categories _ hord) _
      | false =>
        by_cases h3 : (cats.getD []) = []
        · rw [hdefault gtf cats h1 h3]
          exact keys_pairwise _ (blocks_pairwise a.categories _ hord) _
        · cases cats with
          | none => exact absurd rfl h3
          | some l =>
            rw [selectTargetGaps_cats a gtf l h1 (by simpa using h3),
              gapsByCategory_cats a _ hord hgap]
            exact keys_pairwise _
              (blocks_pairwise _ _
                (List.Pairwise.sublist (List.filter_sublist _) hord)) _
    · rw [selectTargetGaps_ids a gtf io cats h1,
        gapsByCategory_filter a _ hord hgap]
      exact keys_pairwise _ (blocks_pairwise a.categories _ hord) _

/-- Witness for C6: the explicit id filter on the concrete analysis groups the
two matched gaps under their categories in declaration order. -/
theorem c6_witness :
    gapsByCategory (selectTargetGaps exAnalysis (some ["g1", "g2"]) false none) =
      [(Category.testing, [exGap1]), (Category.security, [exGap2])] := by
  have h := (c6_grouping exAnalysis (by decide) (by decide)).1 (some ["g1", "g2"])
    (by decide) false none
  rw [h]
  decide

end Inprod
